import Mathlib

/-!
Verification of the resolveai-action submission pipeline.

This file embeds the core of the repository in Lean 4:

* `src/crypto.ts` (two observed variants): `createStableJsonString` (deep
  recursive key sort), its earlier shallow replacer-based variant,
  `signPayload` (HMAC-SHA256, base64, `sha256=` header form) and
  `createIdempotencyKey`;
* `src/client.ts`: `ECSClient.submitJob`, `makeRequestWithRetry`,
  `shouldRetry`, `shouldRetryError`, `calculateBackoff`;
* `src/schema.ts`: the `ecsResponseSchema` response-shape validation;
* `src/index.ts`: `buildJobPayload`.

JavaScript objects are modelled as insertion-ordered key/value lists
(`JObj`), mirroring the fact that `JSON.stringify` emits keys in insertion
order; JS numbers appearing in payloads are integers and are modelled as
`Int`; `undefined` optional fields are modelled by omitting the entry
(`JSON.stringify` drops `undefined`-valued properties).  The retrying
transport is modelled as a pure loop over an environment
`Nat → AttemptOutcome` giving the outcome of each physical attempt.
-/

namespace ResolveAI

/-! ## JSON value model

A JSON value as produced by the action: JS objects are key/value lists in
insertion order (JS object keys are unique; theorems that depend on key
uniqueness take it as an explicit hypothesis `jNodup`). -/
mutual

inductive Json where
  | null : Json
  | bool (b : Bool) : Json
  | num (n : Int) : Json
  | str (s : String) : Json
  | arr (xs : JArr) : Json
  | obj (kvs : JObj) : Json

inductive JArr where
  | nil : JArr
  | cons (hd : Json) (tl : JArr) : JArr

inductive JObj where
  | nil : JObj
  | cons (key : String) (val : Json) (tl : JObj) : JObj

end

/-- Hex digit used by `JSON.stringify` \u escapes (lowercase, as in V8). -/
def hexDigit (n : Nat) : Char :=
  if n < 10 then Char.ofNat (48 + n) else Char.ofNat (87 + n)

/-- Escaping of a single character inside a JSON string literal, as done by
`JSON.stringify`. -/
def escapeChar (c : Char) : String :=
  if c = '"' then "\\\""
  else if c = '\\' then "\\\\"
  else if c = Char.ofNat 8 then "\\b"
  else if c = Char.ofNat 9 then "\\t"
  else if c = Char.ofNat 10 then "\\n"
  else if c = Char.ofNat 12 then "\\f"
  else if c = Char.ofNat 13 then "\\r"
  else if c.toNat < 32 then
    "\\u00" ++ String.mk [hexDigit (c.toNat / 16), hexDigit (c.toNat % 16)]
  else String.singleton c

/-- JSON string literal quoting, as done by `JSON.stringify`. -/
def jsonQuote (s : String) : String :=
  "\"" ++ String.join (s.data.map escapeChar) ++ "\""

mutual

/-- `JSON.stringify(v)` (no replacer, no spacing): keys are emitted in the
object's insertion order, arrays in element order. -/
def stringify : Json → String
  | .null => "null"
  | .bool b => if b then "true" else "false"
  | .num n => toString n
  | .str s => jsonQuote s
  | .arr xs => "[" ++ stringifyArr xs ++ "]"
  | .obj kvs => "\x7b" ++ stringifyObj kvs ++ "\x7d"

def stringifyArr : JArr → String
  | .nil => ""
  | .cons x .nil => stringify x
  | .cons x (.cons y tl) => stringify x ++ "," ++ stringifyArr (.cons y tl)

def stringifyObj : JObj → String
  | .nil => ""
  | .cons k v .nil => jsonQuote k ++ ":" ++ stringify v
  | .cons k v (.cons k' v' tl) =>
    jsonQuote k ++ ":" ++ stringify v ++ "," ++ stringifyObj (.cons k' v' tl)

end

/-- Lexicographic comparison of character lists by code point: the
comparison `Array.prototype.sort()` applies to key strings. -/
def charListLe : List Char → List Char → Bool
  | [], _ => true
  | _ :: _, [] => false
  | a :: as, b :: bs =>
    if a.toNat < b.toNat then true
    else if b.toNat < a.toNat then false
    else charListLe as bs

/-- JS string comparison (`a <= b` on strings, as used by the default
`Array.prototype.sort()` comparator on keys). -/
def strLe (a b : String) : Bool := charListLe a.data b.data

/-- Sorted insertion of an entry into an entry list, ordered by key
(JS `Array.prototype.sort()` compares key strings). -/
def insertEntry (k : String) (v : Json) : JObj → JObj
  | .nil => .cons k v .nil
  | .cons k' v' tl =>
    if strLe k k' then .cons k v (.cons k' v' tl) else .cons k' v' (insertEntry k v tl)

mutual

/-- The `normalize` closure of `createStableJsonString` (deep variant,
`src/crypto.ts` lines 8-19): recursively rewrites every object so that its
entries are sorted by key (`Object.keys(val).sort()` rebuilt via
`Object.fromEntries`), recurses into arrays preserving element order, and
leaves scalars unchanged.  The `WeakSet` cycle guard of the source is a
no-op on tree-shaped values, and every value of the inductive `Json` type
is a tree, so it does not appear in the model. -/
def normalize : Json → Json
  | .null => .null
  | .bool b => .bool b
  | .num n => .num n
  | .str s => .str s
  | .arr xs => .arr (normArr xs)
  | .obj kvs => .obj (normObj kvs)

def normArr : JArr → JArr
  | .nil => .nil
  | .cons x xs => .cons (normalize x) (normArr xs)

def normObj : JObj → JObj
  | .nil => .nil
  | .cons k v tl => insertEntry k (normalize v) (normObj tl)

end

/-- Deep stable stringify, `createStableJsonString` of `src/crypto.ts`
(deep-recursive variant, lines 6-21):
`JSON.stringify(normalize(payload))`. -/
def createStableJsonString (payload : Json) : String :=
  stringify (normalize payload)

/-! ### Shallow replacer variant

The earlier variant of `createStableJsonString` is
`JSON.stringify(payload, Object.keys(payload).sort())`.  Per ECMA-262, an
array replacer is a property whitelist: at *every* nesting depth only keys
occurring in the list are serialized, in list order; keys of nested objects
that are not top-level keys are stripped entirely (the deep variant's
comment: "the whitelist-array replacer ... previously stripped nested
fields"). -/
/-- Keys of an object in insertion order (`Object.keys`). -/
def keysOf : JObj → List String
  | .nil => []
  | .cons k _ tl => k :: keysOf tl

/-- First-match lookup of a key (JS object property access; keys are unique
in JS objects). -/
def lookupEntry : JObj → String → Option Json
  | .nil, _ => none
  | .cons k v tl, key => if key = k then some v else lookupEntry tl key

/-- Sorted insertion for `Array.prototype.sort()` on a key list. -/
def insertKey (k : String) : List String → List String
  | [] => [k]
  | k' :: tl => if strLe k k' then k :: k' :: tl else k' :: insertKey k tl

/-- `Array.prototype.sort()` on a list of unique keys (insertion sort;
for unique keys this is the unique sorted arrangement). -/
def sortKeys : List String → List String
  | [] => []
  | k :: tl => insertKey k (sortKeys tl)

mutual

/-- Deep key filtering under a replacer whitelist `K`: per ECMA-262, an
array replacer makes `JSON.stringify` emit, at every object at every
nesting depth, exactly the properties whose key occurs in `K`; all other
entries are stripped.  Arrays and scalars are unaffected. -/
def filterKeysDeep (K : List String) : Json → Json
  | .null => .null
  | .bool b => .bool b
  | .num n => .num n
  | .str s => .str s
  | .arr xs => .arr (filterKeysArr K xs)
  | .obj kvs => .obj (filterKeysObj K kvs)

def filterKeysArr (K : List String) : JArr → JArr
  | .nil => .nil
  | .cons x xs => .cons (filterKeysDeep K x) (filterKeysArr K xs)

def filterKeysObj (K : List String) : JObj → JObj
  | .nil => .nil
  | .cons k v tl =>
    if K.contains k then .cons k (filterKeysDeep K v) (filterKeysObj K tl)
    else filterKeysObj K tl

end

/-- Top-level keys of a payload (`Object.keys`; the payload handed to
`createStableJsonString` is a JS object, so the non-object cases are
vacuous and yield no keys). -/
def topKeys : Json → List String
  | .obj kvs => keysOf kvs
  | _ => []

/-- The shallow variant of `createStableJsonString` (`src/crypto.ts`,
second observed variant, lines 66-68):
`JSON.stringify(payload, Object.keys(payload).sort())`.
Per ECMA-262 the replacer array is the PropertyList: at every nesting
depth only properties whose key occurs in it are emitted, in PropertyList
order.  Here the PropertyList is the sorted list of the (unique) top-level
keys, so emission order for the surviving entries of every object is
ascending key order, i.e. exactly what `normalize` produces on the
key-filtered tree. -/
def createStableJsonStringShallow (payload : Json) : String :=
  stringify (normalize (filterKeysDeep (sortKeys (topKeys payload)) payload))

/-! ## Key-order equivalence

`JEquiv a b` holds exactly when `a` and `b` are deeply equal except for
the insertion order of object keys at any nesting depth: scalars must be
equal, arrays must be element-wise equivalent in order, and object entry
lists must be permutations of one another (same keys, equivalent values).
`OEquiv` mirrors `List.Perm` (nil/cons/swap/trans) with entry values
related by `JEquiv` rather than equality. -/
mutual

inductive JEquiv : Json → Json → Prop where
  | null : JEquiv .null .null
  | bool (b : Bool) : JEquiv (.bool b) (.bool b)
  | num (n : Int) : JEquiv (.num n) (.num n)
  | str (s : String) : JEquiv (.str s) (.str s)
  | arr {xs ys : JArr} : AEquiv xs ys → JEquiv (.arr xs) (.arr ys)
  | obj {kvs lvs : JObj} : OEquiv kvs lvs → JEquiv (.obj kvs) (.obj lvs)

inductive AEquiv : JArr → JArr → Prop where
  | nil : AEquiv .nil .nil
  | cons {x y : Json} {xs ys : JArr} :
      JEquiv x y → AEquiv xs ys → AEquiv (.cons x xs) (.cons y ys)

inductive OEquiv : JObj → JObj → Prop where
  | nil : OEquiv .nil .nil
  | cons (k : String) {v w : Json} {tl tl' : JObj} :
      JEquiv v w → OEquiv tl tl' → OEquiv (.cons k v tl) (.cons k w tl')
  | swap (k₁ k₂ : String) (v₁ v₂ : Json) (tl : JObj) :
      OEquiv (.cons k₁ v₁ (.cons k₂ v₂ tl)) (.cons k₂ v₂ (.cons k₁ v₁ tl))
  | trans {a b c : JObj} : OEquiv a b → OEquiv b c → OEquiv a c

end

/-- Membership of a key in an object entry list. -/
def keyMem (k : String) : JObj → Bool
  | .nil => false
  | .cons k' _ tl => if k = k' then true else keyMem k tl

mutual

/-- Key uniqueness at every nesting depth.  JS objects cannot carry
duplicate keys, so every value reachable from a real `JobPayload`
satisfies this; the `Json` type itself is more liberal, hence the
explicit predicate. -/
def jNodup : Json → Bool
  | .null => true
  | .bool _ => true
  | .num _ => true
  | .str _ => true
  | .arr xs => aNodup xs
  | .obj kvs => oNodup kvs

def aNodup : JArr → Bool
  | .nil => true
  | .cons x xs => jNodup x && aNodup xs

def oNodup : JObj → Bool
  | .nil => true
  | .cons k v tl => !keyMem k tl && jNodup v && oNodup tl

end

/-- The spec example `\x7ba:\x7by:1,x:2\x7d\x7d`. -/
def c1Left : Json :=
  .obj (.cons "a" (.obj (.cons "y" (.num 1) (.cons "x" (.num 2) .nil))) .nil)

/-- The spec example `\x7ba:\x7bx:2,y:1\x7d\x7d`: same value, nested keys
inserted in the opposite order. -/
def c1Right : Json :=
  .obj (.cons "a" (.obj (.cons "x" (.num 2) (.cons "y" (.num 1) .nil))) .nil)

/-- A JobPayload-shaped value: nested `github` and `job` blocks whose keys
are not top-level keys. -/
def samplePayload : Json :=
  .obj (.cons "idempotency_key" (.str "acme/widgets/42/789")
    (.cons "timestamp" (.str "2025-01-01T00:00:00.000Z")
      (.cons "github"
        (.obj (.cons "repository" (.str "acme/widgets")
          (.cons "issue_number" (.num 42) .nil)))
        (.cons "job" (.obj (.cons "action" (.str "run") .nil)) .nil))))

/-- `createIdempotencyKey` of `src/crypto.ts` (lines 30-37): the template
literal `owner/repo/(issueNumber ?? null)/runId`; the nullish-coalescing
operator renders a null issue number as the literal token `null`. -/
def createIdempotencyKey (owner repo : String) (issueNumber : Option Int)
    (runId : String) : String :=
  owner ++ "/" ++ repo ++ "/" ++
    (match issueNumber with
      | some n => toString n
      | none => "null") ++ "/" ++ runId

/-! ## Retrying transport (`src/client.ts`)

The transport is modelled as a pure loop over an environment
`env : Nat → AttemptOutcome` giving, for each 0-indexed physical attempt,
either a completed HTTP response (status plus parsed JSON body) or a
transport-level error code (`fetch` rejection; an aborted attempt is
renamed to code `TIMEOUT` by the source before classification, so it
arrives here as `TIMEOUT`).  The loop returns the terminal result, the
number of attempts made, and the trace of requests sent (body and header
list per attempt).  Wall-clock effects (`sleep`, `AbortController`) have
no functional content and are not modelled. -/
/-- Outcome of one physical attempt, decided by the environment. -/
inductive AttemptOutcome where
  | response (status : Nat) (body : Json)
  | netError (code : String)

/-- `status: accepted | rejected` of `ecsResponseSchema`. -/
inductive JobStatus where
  | accepted : JobStatus
  | rejected : JobStatus
deriving DecidableEq

/-- The validated `ECSResponse` shape of `src/schema.ts` lines 61-64. -/
structure ECSResponse where
  job_id : String
  status : JobStatus
deriving DecidableEq

/-- `ecsResponseSchema.parse`: the body must be an object carrying a
string `job_id` and a `status` equal to `accepted` or `rejected`
(zod objects ignore unknown keys); anything else throws, modelled as
`none`. -/
def ecsResponseParse (j : Json) : Option ECSResponse :=
  match j with
  | .obj kvs =>
    match lookupEntry kvs "job_id", lookupEntry kvs "status" with
    | some (.str id), some (.str "accepted") => some ⟨id, .accepted⟩
    | some (.str id), some (.str "rejected") => some ⟨id, .rejected⟩
    | _, _ => none
  | _ => none

/-- Terminal result of `makeRequestWithRetry`: a parsed success, a thrown
HTTP error carrying its status, a thrown network error carrying its code,
or a thrown response-shape (zod) validation error. -/
inductive RequestResult where
  | ok (r : ECSResponse)
  | httpError (status : Nat)
  | netFailure (code : String)
  | shapeError
deriving DecidableEq

/-- `RetryConfig` of `src/types.ts`. -/
structure RetryConfig where
  maxRetries : Nat
  backoffMs : Nat
  timeoutSeconds : Nat

/-- `shouldRetry` of `src/client.ts` lines 118-120:
`status === 408 || status === 429 || status >= 500`. -/
def shouldRetry (status : Nat) : Bool :=
  status == 408 || status == 429 || decide (500 ≤ status)

/-- `shouldRetryError` of `src/client.ts` lines 122-127. -/
def shouldRetryError (code : String) : Bool :=
  code == "TIMEOUT" || code == "ECONNRESET" || code == "ENOTFOUND" ||
    code == "ECONNREFUSED"

/-- The attempt loop of `makeRequestWithRetry` (`src/client.ts` lines
59-113).  `a` is the current attempt index, `remaining` the number of
further attempts allowed (`maxRetries - a`; the source condition
`attempt < maxRetries` is `remaining > 0`).  Per attempt it sends
`(body, headers)`; a 2xx response (`response.ok`) is parsed against
`ecsResponseSchema` (a parse failure throws inside the `try`, is not a
retryable error code, and is re-thrown); a non-2xx response retries only
when `shouldRetry` holds and budget remains, otherwise the error is
thrown; a network error retries only when `shouldRetryError` holds and
budget remains. -/
def requestLoop (env : Nat → AttemptOutcome) (body : String)
    (headers : List (String × String)) :
    Nat → Nat → RequestResult × Nat × List (String × List (String × String))
  | a, 0 =>
    match env a with
    | .response status rbody =>
      if 200 ≤ status ∧ status < 300 then
        match ecsResponseParse rbody with
        | some r => (.ok r, 1, [(body, headers)])
        | none => (.shapeError, 1, [(body, headers)])
      else
        if shouldRetry status then
          (.httpError status, 1, [(body, headers)])
        else (.httpError status, 1, [(body, headers)])
    | .netError code =>
      if shouldRetryError code then
        (.netFailure code, 1, [(body, headers)])
      else (.netFailure code, 1, [(body, headers)])
  | a, rem + 1 =>
    match env a with
    | .response status rbody =>
      if 200 ≤ status ∧ status < 300 then
        match ecsResponseParse rbody with
        | some r => (.ok r, 1, [(body, headers)])
        | none => (.shapeError, 1, [(body, headers)])
      else
        if shouldRetry status then
          let next := requestLoop env body headers (a + 1) rem
          (next.1, next.2.1 + 1, (body, headers) :: next.2.2)
        else (.httpError status, 1, [(body, headers)])
    | .netError code =>
      if shouldRetryError code then
        let next := requestLoop env body headers (a + 1) rem
        (next.1, next.2.1 + 1, (body, headers) :: next.2.2)
      else (.netFailure code, 1, [(body, headers)])

/-- `makeRequestWithRetry` (`src/client.ts` lines 53-116): runs the
attempt loop from attempt 0 with the full retry budget. -/
def makeRequestWithRetry (cfg : RetryConfig) (env : Nat → AttemptOutcome)
    (body : String) (headers : List (String × String)) :
    RequestResult × Nat × List (String × List (String × String)) :=
  requestLoop env body headers 0 cfg.maxRetries

/-- The error thrown for an attempt outcome when it is terminal. -/
def errorOf : AttemptOutcome → RequestResult
  | .response s _ => .httpError s
  | .netError c => .netFailure c

/-- An attempt outcome that fails and is classified retryable by the
source: a non-2xx response with `shouldRetry` status, or a network error
with `shouldRetryError` code. -/
def isRetryableFailure : AttemptOutcome → Bool
  | .response s _ => (decide (s < 200) || decide (300 ≤ s)) && shouldRetry s
  | .netError c => shouldRetryError c

/-! ## Signer (`signPayload` of `src/crypto.ts`)

`createHmac('sha256', secret)` / `update(payload, 'utf8')` /
`digest('base64')` are modelled by an executable HMAC-SHA256 over byte
lists (bytes as `Nat < 256`, 32-bit words as `Nat` reduced mod `2^32`),
with standard base64 output. -/
/-- Right rotation of a 32-bit word. -/
def rotr32 (n w : Nat) : Nat := (w >>> n) ||| ((w <<< (32 - n)) % 2 ^ 32)

def bsig0 (w : Nat) : Nat := rotr32 2 w ^^^ rotr32 13 w ^^^ rotr32 22 w

def bsig1 (w : Nat) : Nat := rotr32 6 w ^^^ rotr32 11 w ^^^ rotr32 25 w

def ssig0 (w : Nat) : Nat := rotr32 7 w ^^^ rotr32 18 w ^^^ (w >>> 3)

def ssig1 (w : Nat) : Nat := rotr32 17 w ^^^ rotr32 19 w ^^^ (w >>> 10)

def chFn (x y z : Nat) : Nat := (x &&& y) ^^^ ((x ^^^ 0xffffffff) &&& z)

def majFn (x y z : Nat) : Nat := (x &&& y) ^^^ (x &&& z) ^^^ (y &&& z)

/-- The 64 SHA-256 round constants (decimal rendering of the FIPS 180-4
table, row-major). -/
def sha256K : List Nat :=
  [1116352408, 1899447441, 3049323471, 3921009573, 961987163,
   1508970993, 2453635748, 2870763221, 3624381080, 310598401,
   607225278, 1426881987, 1925078388, 2162078206, 2614888103,
   3248222580, 3835390401, 4022224774, 264347078, 604807628,
   770255983, 1249150122, 1555081692, 1996064986, 2554220882,
   2821834349, 2952996808, 3210313671, 3336571891, 3584528711,
   113926993, 338241895, 666307205, 773529912, 1294757372,
   1396182291, 1695183700, 1986661051, 2177026350, 2456956037,
   2730485921, 2820302411, 3259730800, 3345764771, 3516065817,
   3600352804, 4094571909, 275423344, 430227734, 506948616,
   659060556, 883997877, 958139571, 1322822218, 1537002063,
   1747873779, 1955562222, 2024104815, 2227730452, 2361852424,
   2428436474, 2756734187, 3204031479, 3329325298]

/-- The SHA-256 initial hash state (decimal rendering). -/
def sha256H0 : List Nat :=
  [1779033703, 3144134277, 1013904242, 2773480762, 1359893119,
   2600822924, 528734635, 1541459225]

/-- Big-endian byte rendering of `x` on `n` bytes. -/
def bytesBE (n x : Nat) : List Nat :=
  (List.range n).map (fun i => (x >>> (8 * (n - 1 - i))) % 256)

/-- Message-schedule extension: appends `n` further words to `W`. -/
def extendW : List Nat → Nat → List Nat
  | W, 0 => W
  | W, n + 1 =>
    let t := (ssig1 (W.getD (W.length - 2) 0) + W.getD (W.length - 7) 0 +
        ssig0 (W.getD (W.length - 15) 0) + W.getD (W.length - 16) 0) % 2 ^ 32
    extendW (W ++ [t]) n

/-- One SHA-256 compression round on the 8-word state. -/
def sha256Round (s : List Nat) (kw : Nat × Nat) : List Nat :=
  match s with
  | [a, b, c, d, e, f, g, h] =>
    let t1 := (h + bsig1 e + chFn e f g + kw.1 + kw.2) % 2 ^ 32
    let t2 := (bsig0 a + majFn a b c) % 2 ^ 32
    [(t1 + t2) % 2 ^ 32, a, b, c, (d + t1) % 2 ^ 32, e, f, g]
  | _ => s

/-- Big-endian 32-bit word `i` of a 64-byte block. -/
def wordAt (bl : List Nat) (i : Nat) : Nat :=
  (bl.getD (4 * i) 0) <<< 24 ||| (bl.getD (4 * i + 1) 0) <<< 16 |||
    (bl.getD (4 * i + 2) 0) <<< 8 ||| bl.getD (4 * i + 3) 0

/-- SHA-256 compression of one 64-byte block into the hash state. -/
def compressBlock (H : List Nat) (bl : List Nat) : List Nat :=
  let W := extendW ((List.range 16).map (wordAt bl)) 48
  let s := (sha256K.zip W).foldl sha256Round H
  List.zipWith (fun x y => (x + y) % 2 ^ 32) H s

/-- SHA-256 padding: `0x80`, zeros to 56 mod 64, 8-byte big-endian bit
length. -/
def padMessage (msg : List Nat) : List Nat :=
  msg ++ [0x80] ++ List.replicate ((55 + 64 - msg.length % 64) % 64) 0 ++
    bytesBE 8 (8 * msg.length)

/-- Fuel-driven 64-byte chunking; `fuel` only bounds the recursion depth
and `chunk64` supplies `l.length`, which always suffices since each step
consumes at least one element of a non-empty list. -/
def chunk64F : Nat → List Nat → List (List Nat)
  | _, [] => []
  | 0, _ => []
  | fuel + 1, l => l.take 64 :: chunk64F fuel (l.drop 64)

def chunk64 (l : List Nat) : List (List Nat) := chunk64F l.length l

/-- SHA-256 of a byte list, as a 32-byte digest. -/
def sha256Bytes (msg : List Nat) : List Nat :=
  ((chunk64 (padMessage msg)).foldl compressBlock sha256H0).foldr
    (fun w acc => bytesBE 4 w ++ acc) []

/-- HMAC-SHA256 (`createHmac('sha256', key)` over `msg`). -/
def hmacSha256 (key msg : List Nat) : List Nat :=
  let k0 := if 64 < key.length then sha256Bytes key else key
  let kp := k0 ++ List.replicate (64 - k0.length) 0
  sha256Bytes (kp.map (fun b => b ^^^ 0x5c) ++
    sha256Bytes (kp.map (fun b => b ^^^ 0x36) ++ msg))

/-- The standard base64 alphabet. -/
def base64Chars : List Char :=
  "ABCDEFGHIJKLMNOPQRSTUVWXYZabcdefghijklmnopqrstuvwxyz0123456789+/".data

def b64c (n : Nat) : Char := base64Chars.getD n 'A'

/-- Standard base64 encoding with `=` padding (`digest('base64')`). -/
def base64Encode : List Nat → String
  | [] => ""
  | [b1] => String.mk [b64c (b1 / 4), b64c (b1 % 4 * 16)] ++ "=="
  | [b1, b2] =>
    String.mk [b64c (b1 / 4), b64c (b1 % 4 * 16 + b2 / 16), b64c (b2 % 16 * 4)] ++ "="
  | b1 :: b2 :: b3 :: rest =>
    String.mk [b64c (b1 / 4), b64c (b1 % 4 * 16 + b2 / 16),
      b64c (b2 % 16 * 4 + b3 / 64), b64c (b3 % 64)] ++ base64Encode rest

/-- UTF-8 encoding of one code point. -/
def utf8Char (c : Char) : List Nat :=
  let n := c.toNat
  if n < 0x80 then [n]
  else if n < 0x800 then [0xC0 + n / 64, 0x80 + n % 64]
  else if n < 0x10000 then [0xE0 + n / 4096, 0x80 + n / 64 % 64, 0x80 + n % 64]
  else [0xF0 + n / 262144, 0x80 + n / 4096 % 64, 0x80 + n / 64 % 64, 0x80 + n % 64]

/-- UTF-8 bytes of a string (`update(payload, 'utf8')`). -/
def utf8Bytes (s : String) : List Nat :=
  s.data.foldr (fun c acc => utf8Char c ++ acc) []

/-- `signPayload` of `src/crypto.ts` (lines 23-28): HMAC-SHA256 of the
UTF-8 payload bytes under the UTF-8 secret bytes, base64-encoded, behind
the fixed `sha256=` prefix form. -/
def signPayload (payload secret : String) : String :=
  "sha256=" ++ base64Encode (hmacSha256 (utf8Bytes secret) (utf8Bytes payload))

/-! ## Job payload (`src/types.ts`, `src/index.ts`, `src/client.ts`)

Typed payload mirroring the `JobPayload` interface.  `Option` models
TS optionality: for fields the source serializes as JSON `null`
(`provider`, `model`, `url`, `vectordb_token`, `github.issue_number`)
`none` encodes as `Json.null`; for optional fields the source leaves
`undefined` (`tenant`, top-level `issue_number`, `openai_api_key`,
`llm_api_key`, `post_comment`) `none` encodes as an absent entry, which
is what `JSON.stringify` produces for `undefined` values. -/
structure WorkflowRun where
  id : String
  attempt : String

structure GitHubContext where
  repository : String
  issue_number : Option Int
  ref : String
  sha : String
  workflow_run : WorkflowRun
  actor : String
  token : String

structure JobLLM where
  provider : Option String
  model : Option String

structure JobVectordb where
  url : Option String

structure JobSpec where
  action : String
  allow_write_paths : List String
  deny_write_paths : List String
  llm : JobLLM
  vectordb : JobVectordb

structure SecretsForwarded where
  vectordb_token : Option String

structure JobPayload where
  idempotency_key : String
  timestamp : String
  tenant : Option String
  issue_number : Option Int
  github : GitHubContext
  job : JobSpec
  openai_api_key : Option String
  llm_api_key : Option String
  post_comment : Option Bool
  secrets : SecretsForwarded

/-- A nullable field (`none` is JSON `null`). -/
def optStr : Option String → Json
  | some s => .str s
  | none => .null

/-- An optional entry (`none` is `undefined`, dropped by
`JSON.stringify`). -/
def optField (k : String) (v : Option Json) (tl : JObj) : JObj :=
  match v with
  | some j => .cons k j tl
  | none => tl

def strListToJArr : List String → JArr
  | [] => .nil
  | s :: tl => .cons (.str s) (strListToJArr tl)

def githubToJson (g : GitHubContext) : Json :=
  .obj (.cons "repository" (.str g.repository)
    (.cons "issue_number"
        (match g.issue_number with
          | some n => .num n
          | none => .null)
      (.cons "ref" (.str g.ref)
        (.cons "sha" (.str g.sha)
          (.cons "workflow_run"
              (.obj (.cons "id" (.str g.workflow_run.id)
                (.cons "attempt" (.str g.workflow_run.attempt) .nil)))
            (.cons "actor" (.str g.actor)
              (.cons "token" (.str g.token) .nil)))))))

def jobSpecToJson (j : JobSpec) : Json :=
  .obj (.cons "action" (.str j.action)
    (.cons "allow_write_paths" (.arr (strListToJArr j.allow_write_paths))
      (.cons "deny_write_paths" (.arr (strListToJArr j.deny_write_paths))
        (.cons "llm"
            (.obj (.cons "provider" (optStr j.llm.provider)
              (.cons "model" (optStr j.llm.model) .nil)))
          (.cons "vectordb" (.obj (.cons "url" (optStr j.vectordb.url) .nil))
            .nil)))))

/-- The JSON value of a `JobPayload` as handed to
`createStableJsonString`.  Entry order follows the interface declaration;
it is irrelevant to the canonical output, which sorts keys at every
depth. -/
def jobPayloadToJson (p : JobPayload) : Json :=
  .obj
    (.cons "idempotency_key" (.str p.idempotency_key)
      (.cons "timestamp" (.str p.timestamp)
        (optField "tenant" (p.tenant.map Json.str)
          (optField "issue_number" (p.issue_number.map Json.num)
            (.cons "github" (githubToJson p.github)
              (.cons "job" (jobSpecToJson p.job)
                (optField "openai_api_key" (p.openai_api_key.map Json.str)
                  (optField "llm_api_key" (p.llm_api_key.map Json.str)
                    (optField "post_comment" (p.post_comment.map Json.bool)
                      (.cons "secrets"
                        (.obj (.cons "forwarded"
                          (.obj (.cons "vectordb_token"
                            (optStr p.secrets.vectordb_token) .nil))
                          .nil))
                        .nil))))))))))

/-- The payload enrichment at the top of `submitJob` (`src/client.ts`
lines 16-19): duplicate `github.issue_number` at top level when it is a
number (a JSON `null` fails the `typeof === 'number'` guard and leaves
the payload unchanged). -/
def enrichPayload (p : JobPayload) : JobPayload :=
  match p.github.issue_number with
  | some n => { p with issue_number := some n }
  | none => p

/-- The header set assembled by `submitJob` (`src/client.ts` lines
23-48), in source order.  JS truthiness makes an empty `ref`/`sha`/
`tenant` string skip its header.  The source also guards an
`X-ResolveAI-Event` header on `enrichedPayload.github.event_name`, but
`GitHubContext` declares no such field, so that access is `undefined`
(falsy) and the header is never added. -/
def submitHeaders (apiToken signature : String) (p : JobPayload) :
    List (String × String) :=
  [("Content-Type", "application/json"),
   ("User-Agent", "resolveai-action/1.0.0 (+github actions)"),
   ("X-ResolveAI-Token", apiToken),
   ("X-ResolveAI-Signature", signature),
   ("X-ResolveAI-Idempotency-Key", p.idempotency_key),
   ("X-ResolveAI-Repo", p.github.repository)] ++
  (match p.github.issue_number with
    | some n => [("X-ResolveAI-Issue", toString n)]
    | none => []) ++
  (if p.github.ref ≠ "" then [("X-ResolveAI-Ref", p.github.ref)] else []) ++
  (if p.github.sha ≠ "" then [("X-ResolveAI-Sha", p.github.sha)] else []) ++
  (match p.tenant with
    | some t => if t ≠ "" then [("X-ResolveAI-Tenant", t)] else []
    | none => []) ++
  (if p.post_comment = some true then [("X-ResolveAI-Post-Comment", "1")] else [])

/-- `submitJob` (`src/client.ts` lines 14-51): enrich the payload, derive
the canonical JSON body and the signature once, assemble the headers, and
hand body and headers to `makeRequestWithRetry`. -/
def submitJob (apiToken hmacSecret : String) (cfg : RetryConfig)
    (env : Nat → AttemptOutcome) (payload : JobPayload) :
    RequestResult × Nat × List (String × List (String × String)) :=
  let enrichedPayload := enrichPayload payload
  let jsonPayload := createStableJsonString (jobPayloadToJson enrichedPayload)
  let signature := signPayload jsonPayload hmacSecret
  let headers := submitHeaders apiToken signature enrichedPayload
  makeRequestWithRetry cfg env jsonPayload headers

/-! ## `buildJobPayload` (`src/index.ts` lines 91-134) -/
/-- The validated action inputs (`src/schema.ts` lines 3-20); the raw
`post_comment` input is a string when present. -/
structure ActionInputs where
  ecs_endpoint : String
  ecs_api_token : String
  ecs_hmac_secret : String
  action : String
  timeout_seconds : Nat
  max_retries : Nat
  backoff_ms : Nat
  llm_provider : Option String
  model : Option String
  allow_write_paths : List String
  deny_write_paths : List String
  vectordb_url : Option String
  vectordb_token : Option String
  tenant : Option String
  openai_api_key : Option String
  llm_api_key : Option String
  post_comment : Option String

/-- JS `x || undefined` / `x || null` on an optional string: an absent or
empty string collapses to `none`. -/
def jsOr (o : Option String) : Option String :=
  match o with
  | some s => if s = "" then none else some s
  | none => none

/-- JS truthiness of an optional string: present and non-empty. -/
def strTruthy (o : Option String) : Bool :=
  match o with
  | some s => s != ""
  | none => false

/-- The `post_comment` IIFE of `buildJobPayload` (string branch; the
boolean branch of the TS union is unreachable from `getInput`, which
yields strings). -/
def parsePostComment (v : Option String) : Option Bool :=
  match v with
  | none => none
  | some s =>
    if s.toLower.trim ∈ (["1", "true", "yes", "on"] : List String) then some true
    else none

/-- `buildJobPayload`: `owner`/`repo` come from `github.context.repo`,
`timestamp` stands for `new Date().toISOString()`. -/
def buildJobPayload (owner repo : String) (inputs : ActionInputs)
    (githubContext : GitHubContext) (timestamp : String) : JobPayload :=
  { idempotency_key :=
      createIdempotencyKey owner repo githubContext.issue_number
        githubContext.workflow_run.id
  , timestamp := timestamp
  , tenant := jsOr inputs.tenant
  , issue_number := none
  , github := githubContext
  , job :=
    { action := inputs.action
    , allow_write_paths := inputs.allow_write_paths
    , deny_write_paths := inputs.deny_write_paths
    , llm := { provider := jsOr inputs.llm_provider, model := jsOr inputs.model }
    , vectordb := { url := jsOr inputs.vectordb_url } }
  , openai_api_key := jsOr inputs.openai_api_key
  , llm_api_key :=
      if strTruthy inputs.openai_api_key then none else jsOr inputs.llm_api_key
  , post_comment := parsePostComment inputs.post_comment
  , secrets := { vectordb_token := jsOr inputs.vectordb_token } }

/-- `calculateBackoff` (`src/client.ts` lines 129-133) over exact
rationals: `rand` stands for the `Math.random()` draw in `[0, 1)`, the
jitter is `rand * 0.3 + 0.85`, and the delay is
`Math.floor(backoffMs * 2 ^ attempt * jitter)`. -/
def calculateBackoff (backoffMs attempt : Nat) (rand : ℚ) : ℤ :=
  ⌊((backoffMs : ℚ) * 2 ^ attempt) * (rand * (3 / 10) + 17 / 20)⌋

/-- A minimal job payload for concrete runs. -/
def c6Payload : JobPayload :=
  { idempotency_key := "k", timestamp := "t", tenant := none,
    issue_number := none,
    github :=
      { repository := "acme/widgets", issue_number := none,
        ref := "", sha := "", workflow_run := { id := "789", attempt := "1" },
        actor := "octocat", token := "" },
    job :=
      { action := "run", allow_write_paths := [], deny_write_paths := [],
        llm := { provider := none, model := none },
        vectordb := { url := none } },
    openai_api_key := none, llm_api_key := none, post_comment := none,
    secrets := { vectordb_token := none } }

/-! ## Theorems -/

theorem charListLe_total : ∀ as bs : List Char,
    charListLe as bs = false → charListLe bs as = true
  | [], bs, h => by simp [charListLe] at h
  | a :: as, [], h => by simp [charListLe]
  | a :: as, b :: bs, h => by
    rw [charListLe] at h
    rw [charListLe]
    by_cases hab : a.toNat < b.toNat
    · rw [if_pos hab] at h
      cases h
    · rw [if_neg hab] at h
      by_cases hba : b.toNat < a.toNat
      · rw [if_pos hba]
      · rw [if_neg hba] at h
        rw [if_neg hba, if_neg hab]
        exact charListLe_total as bs h

theorem charListLe_antisymm : ∀ as bs : List Char,
    charListLe as bs = true → charListLe bs as = true → as = bs
  | [], [], _, _ => rfl
  | [], b :: bs, _, h2 => by simp [charListLe] at h2
  | a :: as, [], h1, _ => by simp [charListLe] at h1
  | a :: as, b :: bs, h1, h2 => by
    rw [charListLe] at h1 h2
    by_cases hab : a.toNat < b.toNat
    · rw [if_neg (by omega), if_pos hab] at h2
      cases h2
    · rw [if_neg hab] at h1
      by_cases hba : b.toNat < a.toNat
      · rw [if_pos hba] at h1
        cases h1
      · rw [if_neg hba] at h1
        rw [if_neg hba, if_neg hab] at h2
        have hn : a.toNat = b.toNat := by omega
        have heq : a = b := Char.eq_of_val_eq (UInt32.ext hn)
        rw [heq, charListLe_antisymm as bs h1 h2]

theorem charListLe_trans : ∀ as bs cs : List Char,
    charListLe as bs = true → charListLe bs cs = true → charListLe as cs = true
  | [], _, _, _, _ => by simp [charListLe]
  | a :: as, [], _, h1, _ => by simp [charListLe] at h1
  | a :: as, b :: bs, [], _, h2 => by simp [charListLe] at h2
  | a :: as, b :: bs, c :: cs, h1, h2 => by
    rw [charListLe] at h1 h2
    rw [charListLe]
    by_cases hab : a.toNat < b.toNat
    · by_cases hbc : b.toNat < c.toNat
      · rw [if_pos (by omega)]
      · rw [if_neg hbc] at h2
        by_cases hcb : c.toNat < b.toNat
        · rw [if_pos hcb] at h2
          cases h2
        · rw [if_pos (by omega)]
    · rw [if_neg hab] at h1
      by_cases hba : b.toNat < a.toNat
      · rw [if_pos hba] at h1
        cases h1
      · rw [if_neg hba] at h1
        by_cases hbc : b.toNat < c.toNat
        · rw [if_pos (by omega)]
        · rw [if_neg hbc] at h2
          by_cases hcb : c.toNat < b.toNat
          · rw [if_pos hcb] at h2
            cases h2
          · rw [if_neg hcb] at h2
            rw [if_neg (by omega), if_neg (by omega)]
            exact charListLe_trans as bs cs h1 h2

theorem strLe_total {a b : String} (h : strLe a b = false) : strLe b a = true :=
  charListLe_total a.data b.data h

theorem strLe_antisymm {a b : String} (h1 : strLe a b = true)
    (h2 : strLe b a = true) : a = b := by
  cases a with
  | mk as =>
    cases b with
    | mk bs =>
      exact congrArg String.mk (charListLe_antisymm as bs h1 h2)

theorem strLe_trans {a b c : String} (h1 : strLe a b = true)
    (h2 : strLe b c = true) : strLe a c = true :=
  charListLe_trans a.data b.data c.data h1 h2

theorem keyMem_iff : ∀ (l : JObj) (k : String), keyMem k l = true ↔ k ∈ keysOf l
  | .nil, k => by simp [keyMem, keysOf]
  | .cons k' v tl, k => by
    rw [keyMem, keysOf]
    by_cases hk : k = k'
    · simp [hk]
    · simp [hk, keyMem_iff tl k]

/-- An object-level key-order equivalence permutes the key list. -/
theorem oequiv_keysPerm {l₁ l₂ : JObj} (h : OEquiv l₁ l₂) :
    (keysOf l₁).Perm (keysOf l₂) := by
  refine @OEquiv.rec (fun _ _ _ => True) (fun _ _ _ => True)
    (fun a b _ => (keysOf a).Perm (keysOf b))
    ?_ ?_ ?_ ?_ ?_ ?_ ?_ ?_ ?_ ?_ ?_ ?_ _ _ h
  · exact trivial
  · exact fun _ => trivial
  · exact fun _ => trivial
  · exact fun _ => trivial
  · intro xs ys a ih
    exact trivial
  · intro kvs lvs a ih
    exact trivial
  · exact trivial
  · intro x y xs ys a a1 ih1 ih2
    exact trivial
  · exact List.Perm.refl _
  · intro k v w tl tl' a a1 ih1 ih2
    exact ih2.cons k
  · intro k₁ k₂ v₁ v₂ tl
    exact List.Perm.swap k₂ k₁ (keysOf tl)
  · intro a b c a1 a2 ih1 ih2
    exact ih1.trans ih2

/-- Key-order equivalence preserves deep key uniqueness (object level). -/
theorem oequiv_nodup {l₁ l₂ : JObj} (h : OEquiv l₁ l₂)
    (hn : oNodup l₁ = true) : oNodup l₂ = true := by
  refine @OEquiv.rec
    (fun a b _ => jNodup a = true → jNodup b = true)
    (fun xs ys _ => aNodup xs = true → aNodup ys = true)
    (fun a b _ => oNodup a = true → oNodup b = true)
    ?_ ?_ ?_ ?_ ?_ ?_ ?_ ?_ ?_ ?_ ?_ ?_ _ _ h hn
  · exact fun h => h
  · exact fun _ h => h
  · exact fun _ h => h
  · exact fun _ h => h
  · intro xs ys a ih
    exact ih
  · intro kvs lvs a ih
    exact ih
  · exact fun h => h
  · intro x y xs ys a a1 ihx ihxs hh
    simp only [aNodup, Bool.and_eq_true] at hh ⊢
    exact ⟨ihx hh.1, ihxs hh.2⟩
  · exact fun h => h
  · intro k v w tl tl' a a1 ihv ihtl hh
    simp only [oNodup, Bool.and_eq_true, Bool.not_eq_true'] at hh ⊢
    obtain ⟨⟨hkm, hv⟩, htl⟩ := hh
    refine ⟨⟨?_, ihv hv⟩, ihtl htl⟩
    have hperm := oequiv_keysPerm a1
    have h1 : ¬ k ∈ keysOf tl := fun hm => by
      rw [← keyMem_iff] at hm
      rw [hm] at hkm
      cases hkm
    have h2 : ¬ k ∈ keysOf tl' := fun hm => h1 (hperm.mem_iff.mpr hm)
    cases hkm2 : keyMem k tl' with
    | false => rfl
    | true => exact absurd ((keyMem_iff tl' k).mp hkm2) h2
  · intro k₁ k₂ v₁ v₂ tl hh
    simp only [oNodup, keyMem, Bool.and_eq_true, Bool.not_eq_true'] at hh ⊢
    obtain ⟨⟨h1, hv1⟩, ⟨⟨h2, hv2⟩, htl⟩⟩ := hh
    by_cases hk : k₁ = k₂
    · rw [if_pos hk] at h1
      cases h1
    · rw [if_neg hk] at h1
      have hk2 : ¬ k₂ = k₁ := fun hh2 => hk hh2.symm
      exact ⟨⟨by rw [if_neg hk2]; exact h2, hv2⟩, ⟨⟨h1, hv1⟩, htl⟩⟩
  · intro a b c a1 a2 ih1 ih2 hh
    exact ih2 (ih1 hh)

/-- Sorted insertions with distinct keys commute. -/
theorem insertEntry_comm (k₁ k₂ : String) (hne : k₁ ≠ k₂) (x y : Json) :
    ∀ L : JObj, insertEntry k₁ x (insertEntry k₂ y L) = insertEntry k₂ y (insertEntry k₁ x L)
  | .nil => by
    cases h : strLe k₁ k₂ with
    | true =>
      have h' : strLe k₂ k₁ = false := by
        cases hh : strLe k₂ k₁ with
        | false => rfl
        | true => exact absurd (strLe_antisymm h hh) hne
      simp [insertEntry, h, h']
    | false =>
      have h' : strLe k₂ k₁ = true := strLe_total h
      simp [insertEntry, h, h']
  | .cons k v tl => by
    have IH := insertEntry_comm k₁ k₂ hne x y tl
    cases h2 : strLe k₂ k with
    | true =>
      cases h12 : strLe k₁ k₂ with
      | true =>
        have h1 : strLe k₁ k = true := strLe_trans h12 h2
        have h21 : strLe k₂ k₁ = false := by
          cases hh : strLe k₂ k₁ with
          | false => rfl
          | true => exact absurd (strLe_antisymm h12 hh) hne
        simp [insertEntry, h2, h12, h1, h21]
      | false =>
        have h21 : strLe k₂ k₁ = true := strLe_total h12
        cases h1 : strLe k₁ k with
        | true => simp [insertEntry, h2, h12, h1, h21]
        | false => simp [insertEntry, h2, h12, h1, h21]
    | false =>
      cases h1 : strLe k₁ k with
      | true =>
        have h21 : strLe k₂ k₁ = false := by
          cases hh : strLe k₂ k₁ with
          | false => rfl
          | true =>
            have := strLe_trans hh h1
            rw [this] at h2
            cases h2
        simp [insertEntry, h2, h1, h21]
      | false => simp [insertEntry, h2, h1, IH]

/-- Key-order-equivalent values with unique keys have the same
normal form. -/
theorem jequiv_normalize {a b : Json} (h : JEquiv a b)
    (ha : jNodup a = true) (hb : jNodup b = true) : normalize a = normalize b := by
  refine @JEquiv.rec
    (fun a b _ => jNodup a = true → jNodup b = true → normalize a = normalize b)
    (fun xs ys _ => aNodup xs = true → aNodup ys = true → normArr xs = normArr ys)
    (fun l₁ l₂ _ => oNodup l₁ = true → oNodup l₂ = true → normObj l₁ = normObj l₂)
    ?_ ?_ ?_ ?_ ?_ ?_ ?_ ?_ ?_ ?_ ?_ ?_ _ _ h ha hb
  · exact fun _ _ => rfl
  · exact fun _ _ _ => rfl
  · exact fun _ _ _ => rfl
  · exact fun _ _ _ => rfl
  · intro xs ys a ih hx hy
    exact congrArg Json.arr (ih hx hy)
  · intro kvs lvs a ih hx hy
    exact congrArg Json.obj (ih hx hy)
  · exact fun _ _ => rfl
  · intro x y xs ys a a1 ihx ihxs hx hy
    simp only [aNodup, Bool.and_eq_true] at hx hy
    exact congrArg₂ JArr.cons (ihx hx.1 hy.1) (ihxs hx.2 hy.2)
  · exact fun _ _ => rfl
  · intro k v w tl tl' a a1 ihv ihtl hx hy
    simp only [oNodup, Bool.and_eq_true] at hx hy
    exact congrArg₂ (insertEntry k) (ihv hx.1.2 hy.1.2) (ihtl hx.2 hy.2)
  · intro k₁ k₂ v₁ v₂ tl hx hy
    simp only [oNodup, keyMem, Bool.and_eq_true, Bool.not_eq_true'] at hx
    obtain ⟨⟨h1, _⟩, _⟩ := hx
    have hne : k₁ ≠ k₂ := fun hh => by
      rw [if_pos hh] at h1
      cases h1
    exact insertEntry_comm k₁ k₂ hne (normalize v₁) (normalize v₂) (normObj tl)
  · intro o1 o2 o3 a1 a2 ih1 ih2 hx hz
    have hy := oequiv_nodup a1 hx
    exact (ih1 hx hy).trans (ih2 hy hz)

/-- Claim C1: for every pair of (JobPayload) JSON values that are deeply
equal except for the insertion order of object keys at any nesting depth
(array element order unchanged), the deep-recursive
`createStableJsonString` produces byte-identical output strings.  The
`jNodup` hypotheses record that JS objects cannot carry duplicate keys;
determinism on a fixed input is immediate since the embedding of
`createStableJsonString` is a pure function of the payload value. -/
theorem C1_createStableJsonString_key_order_invariant {a b : Json}
    (hequiv : JEquiv a b) (ha : jNodup a = true) (hb : jNodup b = true) :
    createStableJsonString a = createStableJsonString b := by
  unfold createStableJsonString
  rw [jequiv_normalize hequiv ha hb]

theorem C1_createStableJsonString_key_order_invariant_witness :
    JEquiv c1Left c1Right ∧ jNodup c1Left = true ∧ jNodup c1Right = true ∧
      createStableJsonString c1Left = createStableJsonString c1Right :=
  have he : JEquiv c1Left c1Right :=
    .obj (.cons "a" (.obj (.swap "y" "x" (.num 1) (.num 2) .nil)) .nil)
  ⟨he, by decide, by decide,
    C1_createStableJsonString_key_order_invariant he (by decide) (by decide)⟩

/-- Claim C2: the shallow top-level-only variant of
`createStableJsonString` (`JSON.stringify` with the sorted top-level key
list as array replacer) is not extensionally equal to the deep-recursive
variant: on a JobPayload-shaped value the replacer whitelist strips every
nested key (`repository`, `issue_number`, `action`) that is not also a
top-level key, so the two outputs differ. -/
theorem C2_shallow_variant_differs_from_deep :
    ∃ p : Json, createStableJsonStringShallow p ≠ createStableJsonString p :=
  ⟨samplePayload, by decide⟩

/-- Claim C9: `createIdempotencyKey` is a pure function returning exactly
`owner/repo/issueNumber/runId`, with a null issue number rendered as the
literal token `null` (not an empty string), and the two spec examples
evaluate as stated. -/
theorem C9_createIdempotencyKey_format :
    (∀ (owner repo : String) (n : Int) (runId : String),
        createIdempotencyKey owner repo (some n) runId =
          owner ++ "/" ++ repo ++ "/" ++ toString n ++ "/" ++ runId) ∧
    (∀ (owner repo runId : String),
        createIdempotencyKey owner repo none runId =
          owner ++ "/" ++ repo ++ "/" ++ "null" ++ "/" ++ runId) ∧
    createIdempotencyKey "acme" "widgets" (some 42) "789" = "acme/widgets/42/789" ∧
    createIdempotencyKey "acme" "widgets" none "789" = "acme/widgets/null/789" :=
  ⟨fun _ _ _ _ => rfl, fun _ _ _ => rfl, by decide, by decide⟩

/-- Claim C8: `signPayload` is deterministic — in this embedding it is a
pure function of the payload and secret alone (Node's `createHmac` is
deterministic), so two signings of the same input are the same string —
its output always has the form `sha256=<base64 HMAC-SHA256 digest>`, and
changing one byte of the payload changes the signature, witnessed at the
spec's test granularity by the concrete one-byte change
`payload → qayload` (universal one-byte collision freedom of HMAC-SHA256
is a cryptographic conjecture, not a provable statement). -/
theorem C8_signPayload_stable :
    (∀ p s : String, ∃ d : String, signPayload p s = "sha256=" ++ d) ∧
    (∀ p s : String, signPayload p s = signPayload p s) ∧
    signPayload "payload" "secret" ≠ signPayload "qayload" "secret" :=
  ⟨fun p s => ⟨base64Encode (hmacSha256 (utf8Bytes s) (utf8Bytes p)), rfl⟩,
   fun _ _ => rfl,
   by
    set_option maxRecDepth 10000 in decide⟩

/-- Every run of the attempt loop makes at least one attempt. -/
theorem requestLoop_count_pos (env : Nat → AttemptOutcome) (b : String)
    (hd : List (String × String)) :
    ∀ (a rem : Nat), 1 ≤ (requestLoop env b hd a rem).2.1
  | a, 0 => by
    cases he : env a with
    | response s rbody =>
      simp only [requestLoop, he]
      split
      · split <;> simp
      · split <;> simp
    | netError c =>
      simp only [requestLoop, he]
      split <;> simp
  | a, rem + 1 => by
    cases he : env a with
    | response s rbody =>
      simp only [requestLoop, he]
      split
      · split <;> simp
      · split
        · simp
        · simp
    | netError c =>
      simp only [requestLoop, he]
      split <;> simp

/-- The trace of sent requests is the per-call `(body, headers)` pair
repeated once per attempt: the loop never alters body or headers. -/
theorem requestLoop_trace (env : Nat → AttemptOutcome) (b : String)
    (hd : List (String × String)) :
    ∀ (a rem : Nat),
      (requestLoop env b hd a rem).2.2 =
        List.replicate (requestLoop env b hd a rem).2.1 (b, hd)
  | a, 0 => by
    cases he : env a with
    | response s rbody =>
      simp only [requestLoop, he]
      split
      · split <;> rfl
      · split <;> rfl
    | netError c =>
      simp only [requestLoop, he]
      split <;> rfl
  | a, rem + 1 => by
    have IH := requestLoop_trace env b hd (a + 1) rem
    cases he : env a with
    | response s rbody =>
      simp only [requestLoop, he]
      split
      · split <;> rfl
      · split
        · simp [IH, List.replicate_succ]
        · rfl
    | netError c =>
      simp only [requestLoop, he]
      split
      · simp [IH, List.replicate_succ]
      · rfl

/-- When every attempt up to the budget fails retryably, the loop runs
the full budget and ends with the last observed error. -/
theorem requestLoop_all_retryable (env : Nat → AttemptOutcome) (b : String)
    (hd : List (String × String)) :
    ∀ (rem a : Nat),
      (∀ i, a ≤ i → i ≤ a + rem → isRetryableFailure (env i) = true) →
      requestLoop env b hd a rem =
        (errorOf (env (a + rem)), rem + 1, List.replicate (rem + 1) (b, hd))
  | 0, a, hall => by
    have h0 := hall a le_rfl (by omega)
    cases he : env a with
    | response s rbody =>
      rw [he] at h0
      simp only [isRetryableFailure, Bool.and_eq_true, Bool.or_eq_true,
        decide_eq_true_eq] at h0
      have hnok : ¬ (200 ≤ s ∧ s < 300) := by
        rcases h0.1 with h1 | h1 <;> omega
      simp only [requestLoop, he]
      rw [if_neg hnok, if_pos h0.2]
      simp [errorOf, he]
    | netError c =>
      rw [he] at h0
      simp only [isRetryableFailure] at h0
      simp only [requestLoop, he]
      rw [if_pos h0]
      simp [errorOf, he]
  | rem + 1, a, hall => by
    have h0 := hall a le_rfl (by omega)
    have IH := requestLoop_all_retryable env b hd rem (a + 1)
      (fun i h1 h2 => hall i (by omega) (by omega))
    cases he : env a with
    | response s rbody =>
      rw [he] at h0
      simp only [isRetryableFailure, Bool.and_eq_true, Bool.or_eq_true,
        decide_eq_true_eq] at h0
      have hnok : ¬ (200 ≤ s ∧ s < 300) := by
        rcases h0.1 with h1 | h1 <;> omega
      simp only [requestLoop, he]
      rw [if_neg hnok, if_pos h0.2, IH]
      have harith : a + 1 + rem = a + (rem + 1) := by omega
      rw [harith]
      simp [List.replicate_succ]
    | netError c =>
      rw [he] at h0
      simp only [isRetryableFailure] at h0
      simp only [requestLoop, he]
      rw [if_pos h0, IH]
      have harith : a + 1 + rem = a + (rem + 1) := by omega
      rw [harith]
      simp [List.replicate_succ]

/-- Claim C4: for every retry budget `maxRetries = n`, when every attempt
fails with a retryable error, `makeRequestWithRetry` makes exactly
`n + 1` attempts (indices `0..n`) and returns the last observed error as
the terminal result. -/
theorem C4_makeRequestWithRetry_exhausts_budget (cfg : RetryConfig)
    (env : Nat → AttemptOutcome) (body : String)
    (headers : List (String × String))
    (hall : ∀ i, i ≤ cfg.maxRetries → isRetryableFailure (env i) = true) :
    makeRequestWithRetry cfg env body headers =
      (errorOf (env cfg.maxRetries), cfg.maxRetries + 1,
        List.replicate (cfg.maxRetries + 1) (body, headers)) := by
  unfold makeRequestWithRetry
  have := requestLoop_all_retryable env body headers cfg.maxRetries 0
    (fun i h1 h2 => hall i (by omega))
  simpa using this

theorem C4_makeRequestWithRetry_exhausts_budget_witness :
    (∀ i, i ≤ 2 →
      isRetryableFailure ((fun _ => AttemptOutcome.netError "ECONNRESET") i) = true) ∧
    makeRequestWithRetry ⟨2, 500, 120⟩ (fun _ => .netError "ECONNRESET") "b" [] =
      (.netFailure "ECONNRESET", 3, List.replicate 3 ("b", [])) :=
  ⟨fun _ _ => rfl,
   C4_makeRequestWithRetry_exhausts_budget ⟨2, 500, 120⟩
     (fun _ => .netError "ECONNRESET") "b" [] (fun _ _ => rfl)⟩

/-- Claim C3 counterexample: the code classifies every status `≥ 500` as
retryable (`status >= 500`), not only `500-599`; a completed response
with status `600` is not 2xx and lies outside `\x7b408, 429\x7d ∪ [500, 599]`,
so the claim requires an immediate terminal failure after one attempt,
yet with budget `maxRetries = 1` the transport makes a second attempt. -/
theorem C3_counterexample_status_600_is_retried :
    shouldRetry 600 = true ∧
    ¬ (600 = 408 ∨ 600 = 429 ∨ (500 ≤ 600 ∧ 600 ≤ 599)) ∧
    ¬ (200 ≤ 600 ∧ 600 < 300) ∧
    (makeRequestWithRetry ⟨1, 500, 120⟩ (fun _ => .response 600 .null) "b" []).2.1 = 2 :=
  ⟨rfl, by decide, by decide, rfl⟩

/-- Claim C3 (amended only where the counterexample forces it: the
retryable status band `500-599` of the claim is `≥ 500` in the code): in
the retry transport, a completed HTTP response with status 408, 429, or
≥ 500 is classified retryable, and backoff and another attempt follow
while attempts remain (the loop reaches the next attempt after awaiting
the `calculateBackoff` delay; the await is a wall-clock effect with no
functional content in this model, and the delay value it waits out is
characterized by the `calculateBackoff` embedding), while any other
non-2xx status (e.g., 404) is a non-retryable terminal failure returned
immediately without further attempts regardless of remaining budget; a
2xx status is handed to response validation as success.  The statements
quantify over the attempt index `a` and the remaining budget `rem`, so
they cover every reachable state of the loop;
`makeRequestWithRetry cfg env b hd` is `requestLoop env b hd 0
cfg.maxRetries`, the instance `a = 0`, `rem = cfg.maxRetries`. -/
theorem C3_retry_classification :
    (∀ s : Nat, shouldRetry s = true ↔ (s = 408 ∨ s = 429 ∨ 500 ≤ s)) ∧
    (∀ (env : Nat → AttemptOutcome) (b : String) (hd : List (String × String))
        (s : Nat) (body : Json) (a rem : Nat),
      env a = .response s body → (s < 200 ∨ 300 ≤ s) → shouldRetry s = false →
      requestLoop env b hd a rem = (.httpError s, 1, [(b, hd)])) ∧
    (∀ (env : Nat → AttemptOutcome) (b : String) (hd : List (String × String))
        (s : Nat) (body : Json) (a rem : Nat),
      env a = .response s body → (s < 200 ∨ 300 ≤ s) → shouldRetry s = true →
      2 ≤ (requestLoop env b hd a (rem + 1)).2.1) ∧
    (∀ (env : Nat → AttemptOutcome) (b : String) (hd : List (String × String))
        (s : Nat) (body : Json) (a rem : Nat),
      env a = .response s body → 200 ≤ s → s < 300 →
      requestLoop env b hd a rem =
        (match ecsResponseParse body with
          | some r => (.ok r, 1, [(b, hd)])
          | none => (.shapeError, 1, [(b, hd)]))) := by
  refine ⟨?_, ?_, ?_, ?_⟩
  · intro s
    simp [shouldRetry, Bool.or_eq_true, beq_iff_eq, decide_eq_true_eq, or_assoc]
  · intro env b hd s body a rem henv hrange hsr
    have hnok : ¬ (200 ≤ s ∧ s < 300) := by rcases hrange with h | h <;> omega
    cases rem with
    | zero =>
      rw [requestLoop, henv]
      dsimp only
      rw [if_neg hnok, if_neg (by simp [hsr])]
    | succ n =>
      rw [requestLoop, henv]
      dsimp only
      rw [if_neg hnok, if_neg (by simp [hsr])]
  · intro env b hd s body a rem henv hrange hsr
    have hnok : ¬ (200 ≤ s ∧ s < 300) := by rcases hrange with h | h <;> omega
    rw [requestLoop, henv]
    dsimp only
    rw [if_neg hnok, if_pos hsr]
    have hpos := requestLoop_count_pos env b hd (a + 1) rem
    dsimp only
    omega
  · intro env b hd s body a rem henv hs1 hs2
    cases rem with
    | zero =>
      rw [requestLoop, henv]
      dsimp only
      rw [if_pos ⟨hs1, hs2⟩]
    | succ n =>
      rw [requestLoop, henv]
      dsimp only
      rw [if_pos ⟨hs1, hs2⟩]

theorem C3_retry_classification_witness :
    (shouldRetry 503 = true ∧ shouldRetry 408 = true ∧ shouldRetry 429 = true ∧
      shouldRetry 404 = false) ∧
    makeRequestWithRetry ⟨3, 500, 120⟩ (fun _ => .response 404 (Json.str "nf")) "b" [] =
      (.httpError 404, 1, [("b", [])]) ∧
    requestLoop (fun _ => .response 404 (Json.str "nf")) "b" [] 1 5 =
      (.httpError 404, 1, [("b", [])]) ∧
    2 ≤ (makeRequestWithRetry ⟨3, 500, 120⟩ (fun _ => .response 503 .null) "b" []).2.1 ∧
    (makeRequestWithRetry ⟨3, 500, 120⟩
        (fun _ => .response 202
          (Json.obj (.cons "job_id" (.str "j1") (.cons "status" (.str "accepted") .nil))))
        "b" []).1 = .ok ⟨"j1", .accepted⟩ := by
  refine ⟨⟨rfl, rfl, rfl, rfl⟩, ?_, ?_, ?_, ?_⟩
  · exact C3_retry_classification.2.1 _ "b" [] 404 (Json.str "nf") 0 3
      rfl (Or.inr (by omega)) rfl
  · exact C3_retry_classification.2.1 _ "b" [] 404 (Json.str "nf") 1 5
      rfl (Or.inr (by omega)) rfl
  · exact C3_retry_classification.2.2.1 _ "b" [] 503 .null 0 2
      rfl (Or.inr (by omega)) rfl
  · show (requestLoop
        (fun _ => .response 202
          (Json.obj (.cons "job_id" (.str "j1") (.cons "status" (.str "accepted") .nil))))
        "b" [] 0 3).1 = _
    rw [C3_retry_classification.2.2.2 _ "b" [] 202 _ 0 3 rfl (by omega) (by omega)]
    rfl

/-- Claim C5: within a single `submitJob` call the canonical JSON body
and the signature header are derived once, before the first attempt, and
every attempt of that submission sends the byte-identical body and the
identical header set: the whole trace of sent requests is the one
pre-computed `(canonical body, headers)` pair, repeated once per attempt.
The loop threads `body` and `headers` unchanged, so nothing is
re-canonicalized or re-signed between attempts. -/
theorem C5_body_and_signature_fixed_across_retries
    (apiToken hmacSecret : String) (cfg : RetryConfig)
    (env : Nat → AttemptOutcome) (payload : JobPayload) :
    (submitJob apiToken hmacSecret cfg env payload).2.2 =
      List.replicate (submitJob apiToken hmacSecret cfg env payload).2.1
        (createStableJsonString (jobPayloadToJson (enrichPayload payload)),
          submitHeaders apiToken
            (signPayload
              (createStableJsonString (jobPayloadToJson (enrichPayload payload)))
              hmacSecret)
            (enrichPayload payload)) := by
  unfold submitJob makeRequestWithRetry
  exact requestLoop_trace env _ _ 0 cfg.maxRetries

/-- Claim C6: an attempt completing with a 2xx status whose body fails
the `\x7bjob_id : string, status : accepted|rejected\x7d` shape makes
`submitJob` fail with the response-shape validation error instead of a
success, after exactly one attempt (the zod throw carries no retryable
error code, so it is re-thrown, not retried). -/
theorem C6_shape_error_not_retried (apiToken hmacSecret : String)
    (cfg : RetryConfig) (env : Nat → AttemptOutcome) (payload : JobPayload)
    (s : Nat) (body : Json) (hs1 : 200 ≤ s) (hs2 : s < 300)
    (henv : env 0 = .response s body) (hparse : ecsResponseParse body = none) :
    (submitJob apiToken hmacSecret cfg env payload).1 = .shapeError ∧
    (submitJob apiToken hmacSecret cfg env payload).2.1 = 1 := by
  unfold submitJob makeRequestWithRetry
  cases hm : cfg.maxRetries with
  | zero =>
    rw [requestLoop, henv]
    dsimp only
    rw [if_pos ⟨hs1, hs2⟩, hparse]
    exact ⟨rfl, rfl⟩
  | succ n =>
    rw [requestLoop, henv]
    dsimp only
    rw [if_pos ⟨hs1, hs2⟩, hparse]
    exact ⟨rfl, rfl⟩

theorem C6_shape_error_not_retried_witness :
    (200 ≤ 202 ∧ 202 < 300) ∧
    ecsResponseParse (Json.obj (.cons "status" (.str "accepted") .nil)) = none ∧
    (submitJob "tok" "sec" ⟨4, 500, 120⟩
        (fun _ => .response 202 (Json.obj (.cons "status" (.str "accepted") .nil)))
        c6Payload).1 = .shapeError :=
  ⟨⟨by omega, by omega⟩, rfl,
   (C6_shape_error_not_retried "tok" "sec" ⟨4, 500, 120⟩ _ c6Payload 202
      (Json.obj (.cons "status" (.str "accepted") .nil))
      (by omega) (by omega) rfl rfl).1⟩

/-- Claim C7: the computed backoff delay equals
`⌊backoffMs * 2 ^ attempt * r⌋` for a jitter multiplier `r` in
`[0.85, 1.15]` (the code draws `r = rand * 0.3 + 0.85` from a
`Math.random()` value `rand ∈ [0, 1)`), and for `backoffMs = 500` and
attempt index 2 every possible delay lies in `[1700, 2300]`
milliseconds. -/
theorem C7_calculateBackoff_formula_and_bounds (base att : Nat) (rand : ℚ)
    (h0 : 0 ≤ rand) (h1 : rand < 1) :
    (∃ r : ℚ, 17 / 20 ≤ r ∧ r ≤ 23 / 20 ∧
      calculateBackoff base att rand = ⌊((base : ℚ) * 2 ^ att) * r⌋) ∧
    1700 ≤ calculateBackoff 500 2 rand ∧ calculateBackoff 500 2 rand ≤ 2300 := by
  refine ⟨⟨rand * (3 / 10) + 17 / 20, by linarith, by linarith, rfl⟩, ?_, ?_⟩
  · unfold calculateBackoff
    rw [Int.le_floor]
    push_cast
    nlinarith
  · unfold calculateBackoff
    have hle : (((500 : ℕ) : ℚ) * 2 ^ 2) * (rand * (3 / 10) + 17 / 20) ≤ 2300 := by
      push_cast
      nlinarith
    have hf := Int.floor_le_floor hle
    have h2300 : (⌊(2300 : ℚ)⌋ : ℤ) = 2300 := by norm_num
    omega

theorem C7_calculateBackoff_formula_and_bounds_witness :
    (0 ≤ (1 : ℚ) / 2 ∧ (1 : ℚ) / 2 < 1) ∧
    ((∃ r : ℚ, 17 / 20 ≤ r ∧ r ≤ 23 / 20 ∧
        calculateBackoff 500 2 ((1 : ℚ) / 2) = ⌊((500 : ℚ) * 2 ^ 2) * r⌋) ∧
      1700 ≤ calculateBackoff 500 2 ((1 : ℚ) / 2) ∧
      calculateBackoff 500 2 ((1 : ℚ) / 2) ≤ 2300) :=
  ⟨⟨by norm_num, by norm_num⟩,
   C7_calculateBackoff_formula_and_bounds 500 2 ((1 : ℚ) / 2)
     (by norm_num) (by norm_num)⟩

/-- Claim C10: in `buildJobPayload`, a truthy (provided, non-empty)
`openai_api_key` input suppresses the `llm_api_key` field of the payload
even when a non-empty `llm_api_key` input was supplied, and the
`llm_api_key` field is present only when `openai_api_key` is absent (the
surrounding pipeline normalizes an empty-string input to `undefined`
before this point, so absent and falsy coincide here) and a non-empty
`llm_api_key` input was supplied. -/
theorem C10_openai_key_suppresses_llm_key (owner repo : String)
    (inputs : ActionInputs) (gh : GitHubContext) (ts : String) :
    (strTruthy inputs.openai_api_key = true →
      (buildJobPayload owner repo inputs gh ts).llm_api_key = none) ∧
    ((buildJobPayload owner repo inputs gh ts).llm_api_key ≠ none →
      strTruthy inputs.openai_api_key = false ∧
        strTruthy inputs.llm_api_key = true) := by
  constructor
  · intro h
    simp [buildJobPayload, h]
  · intro h
    by_cases ho : strTruthy inputs.openai_api_key = true
    · exact absurd (by simp [buildJobPayload, ho]) h
    · have ho2 : strTruthy inputs.openai_api_key = false := by
        cases hx : strTruthy inputs.openai_api_key with
        | false => rfl
        | true => exact absurd hx ho
      refine ⟨ho2, ?_⟩
      simp [buildJobPayload, ho2] at h
      cases hl : inputs.llm_api_key with
      | none => simp [jsOr, hl] at h
      | some sk =>
        rw [hl] at h
        simp only [jsOr] at h
        by_cases hs : sk = ""
        · rw [if_pos hs] at h
          exact absurd rfl h
        · simp [strTruthy, hl, hs]

theorem C10_openai_key_suppresses_llm_key_witness :
    strTruthy (some "sk-openai") = true ∧
    (buildJobPayload "acme" "widgets"
        { ecs_endpoint := "https://e", ecs_api_token := "t",
          ecs_hmac_secret := "s", action := "run", timeout_seconds := 120,
          max_retries := 4, backoff_ms := 500, llm_provider := none,
          model := none, allow_write_paths := [], deny_write_paths := [],
          vectordb_url := none, vectordb_token := none, tenant := none,
          openai_api_key := some "sk-openai", llm_api_key := some "other-key",
          post_comment := none }
        { repository := "acme/widgets", issue_number := some 42,
          ref := "refs/heads/main",
          sha := "aaaaaaaaaaaaaaaaaaaaaaaaaaaaaaaaaaaaaaaa",
          workflow_run := { id := "789", attempt := "1" }, actor := "octocat",
          token := "ghtoken" }
        "2025-01-01T00:00:00.000Z").llm_api_key = none :=
  ⟨rfl,
   (C10_openai_key_suppresses_llm_key "acme" "widgets" _ _
     "2025-01-01T00:00:00.000Z").1 rfl⟩

end ResolveAI
